import Mathlib

/-!
A shallow embedding of `src/main.c` of com.redhat.logging: the per-session
Monitor state machine, the journal read-batch procedure, the record-to-wire
entry translation, the `Monitor` method handler, and the main event-loop
dispatch branch for monitor readiness events.

machine integers, return codes: the C code returns `long` values where a
negative value is an errno-style error.  We model fallible calls with
`Except Int α` carrying the negative return value.  The external
sd-journal collaborator is modelled as a pure value (a list of records
plus a read location) with the documented sd-journal iteration semantics.
-/

set_option autoImplicit false

namespace ComRedhatLogging

/-! ### Error constants (errno values and the libvarlink panic code) -/

/-- errno `ENOENT` (2): returned by `sd_journal_get_data` for an absent field. -/
def ENOENT : Int := 2

/-- errno `EINVAL` (22). -/
def EINVAL : Int := 22

/-- errno `EBADMSG` (74). -/
def EBADMSG : Int := 74

/-- errno `EADDRNOTAVAIL` (99): sd-journal getters fail with it when the
journal has no current entry.  Only its identity matters here. -/
def EADDRNOTAVAIL : Int := 99

/-- `VARLINK_ERROR_PANIC` from libvarlink's error enum.  Only its identity is
ever compared (against itself, and it is distinct from the errno values
above, which are all ≥ 2), so the exact numeric value is immaterial. -/
def VARLINK_ERROR_PANIC : Int := 1

/-- `ERROR_PANIC` from the program's own exit-code enum (`main.c` line 16). -/
def ERROR_PANIC : Nat := 1

/-! ### The journal record data model

A raw journal record, as the out-of-scope Log Record Source hands it to the
program: its opaque resume token (`sd_journal_get_cursor`), its wall-clock
timestamp in microseconds (`sd_journal_get_realtime_usec`), and its named
fields (`sd_journal_get_data`, which returns `"FIELD=value"` bytes). -/
structure Record where
  cursor : String
  usec : Nat
  fields : List (String × String)
  deriving Repr, DecidableEq

/-- First-match field lookup, the semantics of `sd_journal_get_data` over the
record's field list. -/
def lookupField : List (String × String) → String → Option String
  | [], _ => none
  | (n, v) :: rest, name => if n = name then some v else lookupField rest name

/-- Model of `sd_journal_get_data` on the journal's current entry: yields the
raw `"FIELD=value"` datum, or `-ENOENT` when the field is absent. -/
def sd_journal_get_data (rec : Record) (field : String) : Except Int String :=
  match lookupField rec.fields field with
  | some v => .ok (field ++ "=" ++ v)
  | none => .error (-ENOENT)

/-- `strndup(data + field_length, length - field_length)`: drop the first `n`
characters (the fields at hand are ASCII, so bytes = characters). -/
def strDropN (s : String) (n : Nat) : String :=
  ⟨s.data.drop n⟩

/-- `journal_get_string` (`main.c` lines 65–83): fetch a field's datum and
strip the `"FIELD="` part; a datum shorter than that is `-EBADMSG`. -/
def journal_get_string (rec : Record) (field : String) : Except Int String :=
  match sd_journal_get_data rec field with
  | .error r => .error r
  | .ok data =>
    let field_length := field.length + 1
    if data.length < field_length then .error (-EBADMSG)
    else .ok (strDropN data field_length)

/-! ### `strtoll` model -/

/-- `isspace` on the characters `strtoll` skips. -/
def isSpaceChar (c : Char) : Bool :=
  c = ' ' || c = '\t' || c = '\n' || c = '\r' || c = '\x0b' || c = '\x0c'

/-- Numeric value of a run of decimal digits. -/
def digitsVal (ds : List Char) : Nat :=
  ds.foldl (fun acc c => acc * 10 + (c.toNat - 48)) 0

/-- Model of `strtoll(string, &end, 10)` together with the `end == string`
check: skip leading whitespace, an optional sign, then a run of decimal
digits whose trailing non-digit remainder is ignored; `none` iff no digit was
consumed (`end == string`).  (The int64 clamping of out-of-range values is
not modelled; the program only distinguishes values inside `[0,7]`.) -/
def strtollParse (s : String) : Option Int :=
  let cs := s.data.dropWhile isSpaceChar
  let (sign, cs') : Int × List Char :=
    match cs with
    | '-' :: rest => (-1, rest)
    | '+' :: rest => (1, rest)
    | _ => (1, cs)
  let ds := cs'.takeWhile Char.isDigit
  if ds.isEmpty then none
  else some (sign * (digitsVal ds : Int))

/-- `journal_get_int` (`main.c` lines 85–102): fetch the field as a string
and parse a leading base-10 integer; a value with no leading integer at all
is `-EINVAL`. -/
def journal_get_int (rec : Record) (field : String) : Except Int Int :=
  match journal_get_string rec field with
  | .error r => .error r
  | .ok string =>
    match strtollParse string with
    | none => .error (-EINVAL)
    | some number => .ok number

/-! ### `format_time_rfc3339` (`main.c` lines 104–116)

`usec / 1000000`, `gmtime_r`, `strftime "%Y-%m-%d %H:%M:%SZ"`: proleptic
Gregorian civil date from days since the Unix epoch (no leap seconds),
whole-second resolution. -/

/-- Civil date (year, month, day) from non-negative days since 1970-01-01,
the standard era-based algorithm (as `gmtime` computes it). -/
def civilFromDays (days : Nat) : Nat × Nat × Nat :=
  let z := days + 719468
  let era := z / 146097
  let doe := z % 146097
  let yoe := (doe - doe / 1460 + doe / 36524 - doe / 146096) / 365
  let y := yoe + era * 400
  let doy := doe - (365 * yoe + yoe / 4 - yoe / 100)
  let mp := (5 * doy + 2) / 153
  let d := doy - (153 * mp + 2) / 5 + 1
  let m := if mp < 10 then mp + 3 else mp - 9
  (if m ≤ 2 then y + 1 else y, m, d)

/-- Zero-pad a number to (at least) two digits, as `strftime`'s `%m`, `%d`,
`%H`, `%M`, `%S` do. -/
def pad2 (n : Nat) : String :=
  if n < 10 then "0" ++ toString n else toString n

/-- `format_time_rfc3339`: UTC `YYYY-MM-DD HH:MM:SSZ` of `usec / 1000000`
seconds since the epoch. -/
def format_time_rfc3339 (usec : Nat) : String :=
  let t := usec / 1000000
  let ymd := civilFromDays (t / 86400)
  toString ymd.1 ++ "-" ++ pad2 ymd.2.1 ++ "-" ++ pad2 ymd.2.2 ++ " " ++
    pad2 (t / 3600 % 24) ++ ":" ++ pad2 (t / 60 % 60) ++ ":" ++ pad2 (t % 60) ++ "Z"

/-! ### The wire entry and the entry translator -/

/-- The `priorities` table (`main.c` lines 37–46). -/
def priorities : List String :=
  ["debug", "information", "notice", "warning", "error", "alert", "critical", "emergency"]

/-- A wire entry, the varlink object built by `journal_read_next_entry`
(`main.c` lines 202–213): `cursor`, `time` and `message` are always set,
`priority` and `process` only conditionally. -/
structure WireEntry where
  cursor : String
  time : String
  message : String
  priority : Option String
  process : Option String
  deriving Repr, DecidableEq

/-- The translation part of `journal_read_next_entry` (`main.c` lines
182–216), as a function of the journal's current record: the C getters
called between a successful `sd_journal_next` and the return all read that
one record.  `sd_journal_get_cursor` and `sd_journal_get_realtime_usec` are
total on the model record (their C failure paths abort the batch exactly as
a `MESSAGE` fetch failure does, which the model retains). -/
def translateRecord (rec : Record) : Except Int WireEntry :=
  let cursor := rec.cursor
  let timestr := format_time_rfc3339 rec.usec
  match journal_get_string rec "MESSAGE" with
  | .error r => .error r
  | .ok message =>
    match (match journal_get_int rec "PRIORITY" with
           | .error r => if r = -ENOENT then .ok (-1 : Int) else .error r
           | .ok n => .ok n : Except Int Int) with
    | .error r => .error r
    | .ok priority =>
      .ok { cursor := cursor
            time := timestr
            message := message
            priority :=
              if 0 ≤ priority ∧ priority ≤ 7 then some (priorities.getD priority.toNat "")
              else none
            process :=
              match journal_get_string rec "SYSLOG_IDENTIFIER" with
              | .ok process => some process
              | .error _ =>
                match journal_get_string rec "_COMM" with
                | .ok process => some process
                | .error _ => none }

/-- Translate a whole record sequence, aborting at the first failing
record: the denotation of draining the read loop over that sequence. -/
def translateAll : List Record → Except Int (List WireEntry)
  | [] => .ok []
  | r :: rs =>
    match translateRecord r with
    | .error e => .error e
    | .ok w =>
      match translateAll rs with
      | .error e => .error e
      | .ok ws => .ok (w :: ws)

/-- Does a record translate successfully? -/
def translatesOk (r : Record) : Bool :=
  match translateRecord r with
  | .ok _ => true
  | .error _ => false

/-! ### Demo records (for concrete instances of the theorems) -/

/-- A record at the epoch with priority level 6. -/
def recBoot : Record := ⟨"c0", 0, [("MESSAGE", "boot ok"), ("PRIORITY", "6")]⟩

/-- A record one second later with priority level 3. -/
def recWarn : Record := ⟨"c1", 1000000, [("MESSAGE", "disk warn"), ("PRIORITY", "3")]⟩

/-- A record two seconds in with no priority field. -/
def recBeat : Record := ⟨"c2", 2000000, [("MESSAGE", "heartbeat")]⟩

/-- A record with no `MESSAGE` field: its translation fails, the model's
injectable internal read failure. -/
def recNoMsg : Record := ⟨"cb", 0, [("PRIORITY", "3")]⟩

/-- The wire entries of the three well-formed demo records. -/
def wBoot : WireEntry := ⟨"c0", "1970-01-01 00:00:00Z", "boot ok", some "critical", none⟩

def wWarn : WireEntry := ⟨"c1", "1970-01-01 00:00:01Z", "disk warn", some "warning", none⟩

def wBeat : WireEntry := ⟨"c2", "1970-01-01 00:00:02Z", "heartbeat", none, none⟩

/-! ### The journal read position and the movement primitives

sd-journal keeps a read location: before any entry (a fresh `sd_journal_open`),
on a specific entry, past the last entry (after `sd_journal_seek_tail`), or a
pending seek location (after `sd_journal_seek_cursor`).  `sd_journal_next`
and `sd_journal_previous` return 1 when they moved to an entry and 0 when
there is none in that direction, leaving the location unchanged on failure.
A pending cursor location resolves inclusively: the first `sd_journal_next`
after `sd_journal_seek_cursor` returns the entry the cursor identifies
(sd-journal's `next_beyond_location` accepts the entry at a non-discrete
location, which is why `journalctl --after-cursor` must skip one entry
explicitly). -/

inductive Location where
  | head
  | pos (i : Nat)
  | tail
  | seekTok (tok : String)
  deriving Repr, DecidableEq

structure Journal where
  entries : List Record
  loc : Location
  deriving Repr, DecidableEq

/-- Index of the first record with the given cursor token. -/
def findCursorIdx : List Record → String → Option Nat
  | [], _ => none
  | r :: rest, tok =>
    if r.cursor = tok then some 0
    else (findCursorIdx rest tok).map (· + 1)

/-- `sd_journal_seek_tail`: set the location past the last entry.  (Always
succeeds; its C error paths are resource failures outside the model.) -/
def sd_journal_seek_tail (j : Journal) : Journal :=
  { j with loc := .tail }

/-- `sd_journal_seek_cursor`: set a pending seek location at the given
resume token. -/
def sd_journal_seek_cursor (j : Journal) (tok : String) : Journal :=
  { j with loc := .seekTok tok }

/-- `sd_journal_next`: advance to the next entry, returning the new journal
and 1, or the unchanged journal and 0 when no entry lies ahead.  A pending
cursor location resolves to the entry the token identifies (inclusive); a
token no longer present in the journal has no entry at or after it in the
model, so the move fails. -/
def sd_journal_next (j : Journal) : Journal × Int :=
  match j.loc with
  | .head => if 0 < j.entries.length then ({ j with loc := .pos 0 }, 1) else (j, 0)
  | .pos i => if i + 1 < j.entries.length then ({ j with loc := .pos (i + 1) }, 1) else (j, 0)
  | .tail => (j, 0)
  | .seekTok tok =>
    match findCursorIdx j.entries tok with
    | some i => ({ j with loc := .pos i }, 1)
    | none => (j, 0)

/-- `sd_journal_previous`: move back one entry, 1 on success, 0 when already
at the first entry (location unchanged). -/
def sd_journal_previous (j : Journal) : Journal × Int :=
  match j.loc with
  | .tail =>
    if 0 < j.entries.length then ({ j with loc := .pos (j.entries.length - 1) }, 1) else (j, 0)
  | .pos i => if 0 < i then ({ j with loc := .pos (i - 1) }, 1) else (j, 0)
  | .head => (j, 0)
  | .seekTok tok =>
    match findCursorIdx j.entries tok with
    | some i => ({ j with loc := .pos i }, 1)
    | none => (j, 0)

/-- `sd_journal_previous_skip(j, skip)`: call `sd_journal_previous` up to
`skip` times, returning how many moves succeeded.  (The program always calls
it with `skip = initial_lines + 1 ≥ 1`, so the C function's skip-0
location-resolution special case is never reached.) -/
def sd_journal_previous_skip (j : Journal) : Nat → Journal × Nat
  | 0 => (j, 0)
  | skip + 1 =>
    let (j', r) := sd_journal_previous j
    if r = 1 then
      let (j'', c) := sd_journal_previous_skip j' skip
      (j'', c + 1)
    else (j', 0)

/-- The record the journal is positioned on, when it is positioned on one. -/
def currentRecord (j : Journal) : Option Record :=
  match j.loc with
  | .pos i => j.entries[i]?
  | _ => none

/-- `sd_journal_get_cursor` on the journal: the current entry's resume
token, or an error when there is no current entry. -/
def journal_current_cursor (j : Journal) : Except Int String :=
  match currentRecord j with
  | some r => .ok r.cursor
  | none => .error (-EADDRNOTAVAIL)

/-- `journal_read_next_entry` (`main.c` lines 168–219): advance the journal;
`r <= 0` (no further entry) is returned as-is to the caller's loop, whose
`break` it triggers; on a successful move the current record is translated,
any translation failure aborting with that error. -/
def journal_read_next_entry (j : Journal) : Except Int (Option (WireEntry × Journal)) :=
  let (j', r) := sd_journal_next j
  if r ≤ 0 then .ok none
  else
    match currentRecord j' with
    | none => .error (-EADDRNOTAVAIL)
    | some rec =>
      match translateRecord rec with
      | .error e => .error e
      | .ok w => .ok (some (w, j'))

/-! ### The Monitor and the read-batch procedure -/

/-- The `Monitor` struct (`main.c` lines 27–35).  The varlink call and the
epoll descriptor are abstracted; `registered` tracks whether the journal's
readiness descriptor is in the epoll set (`epoll_add` in `monitor_new`,
`EPOLL_CTL_DEL` in `monitor_free`). -/
structure Monitor where
  journal : Journal
  cursor : Option String
  registered : Bool
  deriving Repr, DecidableEq

/-- A streaming monitor that has delivered `recBoot` (cursor `"c0"` stored,
positioned on index 0) while the journal already holds a second record. -/
def mC4demo : Monitor :=
  { journal := { entries := [recBoot, recWarn], loc := .pos 0 }, cursor := some "c0",
    registered := true }

/-- The state `mC4demo` reaches after dispatching an `Invalidate`. -/
def mC4demo' : Monitor :=
  { journal := { entries := [recBoot, recWarn], loc := .pos 1 }, cursor := some "c1",
    registered := true }

/-- Index of the next record `sd_journal_next` would read. -/
def startIdx (j : Journal) : Nat :=
  match j.loc with
  | .head => 0
  | .pos i => i + 1
  | .tail => j.entries.length
  | .seekTok tok => (findCursorIdx j.entries tok).getD j.entries.length

/-- An upper bound on how many records remain to be read. -/
def Journal.remaining (j : Journal) : Nat :=
  j.entries.length - startIdx j

/-- The `for (;;)` loop of `monitor_read_entries` (`main.c` lines 228–240),
with an explicit structural bound: `fuel = remaining` suffices (theorem
`monitorReadLoop_spec` below characterises the loop's value), because each
successful `sd_journal_next` strictly decreases `remaining`, and at fuel 0
the next read would fail anyway, producing the same result. -/
def monitorReadLoop : Nat → Journal → List WireEntry → Except Int (List WireEntry × Journal)
  | 0, j, acc => .ok (acc, j)
  | fuel + 1, j, acc =>
    match journal_read_next_entry j with
    | .error _ => .error (-VARLINK_ERROR_PANIC)
    | .ok none => .ok (acc, j)
    | .ok (some (e, j')) => monitorReadLoop fuel j' (acc ++ [e])

/-- `monitor_read_entries` (`main.c` lines 221–255): drain the journal into
an ordered batch; then `free(monitor->cursor); monitor->cursor = NULL;` and,
only if at least one record was read, store the journal's current cursor. -/
def monitor_read_entries (m : Monitor) : Except Int (List WireEntry × Monitor) :=
  match monitorReadLoop m.journal.remaining m.journal [] with
  | .error r => .error r
  | .ok (entries, j') =>
    let m1 : Monitor := { m with journal := j', cursor := none }
    if 0 < entries.length then
      match journal_current_cursor j' with
      | .error _ => .error (-VARLINK_ERROR_PANIC)
      | .ok c => .ok (entries, { m1 with cursor := some c })
    else .ok (entries, m1)

/-! ### Streaming dispatch -/

/-- The change kind `sd_journal_process` reports on a readiness wake-up. -/
inductive JournalEvent where
  | append
  | invalidate
  | nop
  deriving Repr, DecidableEq

/-- The read-and-reply tail of `monitor_dispatch` (`main.c` lines 275–285):
a failed batch propagates its error; an empty batch sends nothing; a
non-empty batch is sent as a continuing reply (`VARLINK_REPLY_CONTINUES`).
The first component of the result is the reply frame sent, if any. -/
def monitorDispatchRead (m : Monitor) : Except Int (Option (List WireEntry) × Monitor) :=
  match monitor_read_entries m with
  | .error r => .error r
  | .ok (entries, m') =>
    if entries.length = 0 then .ok (none, m')
    else .ok (some entries, m')

/-- `monitor_dispatch` (`main.c` lines 257–286): on `SD_JOURNAL_INVALIDATE`
reposition the reader — `sd_journal_seek_cursor` on the stored cursor if one
exists, else `sd_journal_seek_tail` — then read; on anything that is not
`SD_JOURNAL_APPEND` return 0 without reading.  The monitor's journal is
taken as already reflecting the entries `sd_journal_process` made visible. -/
def monitor_dispatch (m : Monitor) (event : JournalEvent) : Except Int (Option (List WireEntry) × Monitor) :=
  match event with
  | .nop => .ok (none, m)
  | .append => monitorDispatchRead m
  | .invalidate =>
    let j1 :=
      match m.cursor with
      | some c => sd_journal_seek_cursor m.journal c
      | none => sd_journal_seek_tail m.journal
    monitorDispatchRead { m with journal := j1 }

/-- The monitor branch of the main event loop (`main.c` lines 456–471):
`-VARLINK_ERROR_PANIC` from `monitor_dispatch` makes `main` return
`exit_error(ERROR_PANIC)` — the whole service process exits; any other
error is merely logged and the loop continues. -/
inductive MainOutcome where
  | keepRunning
  | exitProcess (status : Nat)
  deriving Repr, DecidableEq

def main_monitor_branch (m : Monitor) (event : JournalEvent) : MainOutcome :=
  match monitor_dispatch m event with
  | .ok _ => .keepRunning
  | .error r =>
    if r = -VARLINK_ERROR_PANIC then .exitProcess ERROR_PANIC else .keepRunning

/-! ### The `Monitor` method handler -/

/-- Resource-lifecycle operations the handler performs, in order: the
registration of the reader's descriptor with the event multiplexer
(`epoll_add` in `monitor_new`), and the teardown steps of `monitor_free`
(`EPOLL_CTL_DEL`, `sd_journal_close`, `varlink_call_unref`). -/
inductive ResOp where
  | muxRegister
  | muxDeregister
  | readerClose
  | callUnref
  deriving Repr, DecidableEq

/-- The trace `monitor_free` (`main.c` lines 119–129) emits: deregister the
journal descriptor from the epoll, close the journal, release the call. -/
def monitorFreeTrace : List ResOp :=
  [.muxDeregister, .readerClose, .callUnref]

/-- `monitor_new` (`main.c` lines 142–166): allocate the monitor, reference
the call, open a fresh journal reader (read position before all entries),
immediately register its descriptor with the epoll, and seek to the tail.
Open and registration cannot fail in the model (their C failure paths
abort the handler before any reply). -/
def monitor_new (logRecords : List Record) : Monitor × List ResOp :=
  let j0 : Journal := { entries := logRecords, loc := .head }
  let j1 := sd_journal_seek_tail j0
  ({ journal := j1, cursor := none, registered := true }, [.muxRegister])

/-- A reply frame the handler sends on the call. -/
inductive HandlerReply where
  | entriesReply (entries : List WireEntry) (continues : Bool)
  | invalidParameter (param : String)
  deriving Repr, DecidableEq

/-- What a run of the `Monitor` method handler leaves behind: its return
value, the reply frame it sent (if any), the monitor that survives the
handler (only a streaming session's), and the resource-operation trace. -/
structure HandlerOutcome where
  ret : Int
  reply : Option HandlerReply
  kept : Option Monitor
  trace : List ResOp
  deriving Repr, DecidableEq

/-- `com_redhat_logging_monitor` (`main.c` lines 288–329): create the
monitor (which registers with the epoll and seeks to the tail), default
`initial_lines` to 10, reject a negative value with an `InvalidParameter`
reply, skip back `initial_lines + 1` records, drain the initial batch,
reply once (a continuing reply iff the call has `VARLINK_CALL_MORE`), and
keep the monitor alive only for a streaming call; on every other path the
scope-exit handler runs `monitor_free`. -/
def com_redhat_logging_monitor (logRecords : List Record)
    (params_initial_lines : Option Int) (more : Bool) : HandlerOutcome :=
  let (monitor, t0) := monitor_new logRecords
  let initial_lines : Int := params_initial_lines.getD 10
  if initial_lines < 0 then
    { ret := 0, reply := some (.invalidParameter "initial_lines"), kept := none,
      trace := t0 ++ monitorFreeTrace }
  else
    let (j1, _) := sd_journal_previous_skip monitor.journal (initial_lines + 1).toNat
    let monitor := { monitor with journal := j1 }
    match monitor_read_entries monitor with
    | .error r =>
      { ret := r, reply := none, kept := none, trace := t0 ++ monitorFreeTrace }
    | .ok (entries, m1) =>
      if more then
        { ret := 0, reply := some (.entriesReply entries true), kept := some m1, trace := t0 }
      else
        { ret := 0, reply := some (.entriesReply entries false), kept := none,
          trace := t0 ++ monitorFreeTrace }

/-! ### Supporting lemmas -/

theorem strData_append (a b : String) : (a ++ b).data = a.data ++ b.data := by
  cases a; cases b; rfl

theorem strLength_data (s : String) : s.length = s.data.length := rfl

/-- `journal_get_string` is field lookup: the `"FIELD="` stripping recovers
exactly the value, and the `-EBADMSG` guard can never fire on well-formed
data. -/
theorem journal_get_string_eq (rec : Record) (field : String) :
    journal_get_string rec field =
      match lookupField rec.fields field with
      | some v => .ok v
      | none => .error (-ENOENT) := by
  unfold journal_get_string sd_journal_get_data
  cases h : lookupField rec.fields field with
  | none => simp
  | some v =>
    have hdata : (field ++ "=" ++ v).data = (field.data ++ ['=']) ++ v.data := by
      rw [strData_append, strData_append]
    have hlen : (field ++ "=" ++ v).length = field.data.length + 1 + v.data.length := by
      rw [strLength_data, hdata]
      simp
      omega
    have hdrop : strDropN (field ++ "=" ++ v) (field.length + 1) = v := by
      unfold strDropN
      have h1 : (field.data ++ ['=']).length = field.data.length + 1 := by simp
      have h2 : ((field.data ++ ['=']) ++ v.data).drop (field.data.length + 1) = v.data := by
        rw [← h1, List.drop_left]
      have h3 : field.length + 1 = field.data.length + 1 := by rw [strLength_data]
      rw [hdata, h3, h2]
    simp only [hlen, strLength_data]
    rw [if_neg (by omega)]
    simp [hdrop]

theorem translateRecord_ok_cursor {rec : Record} {w : WireEntry}
    (h : translateRecord rec = .ok w) : w.cursor = rec.cursor := by
  unfold translateRecord at h
  cases hm : journal_get_string rec "MESSAGE" with
  | error e => rw [hm] at h; exact absurd h (by simp)
  | ok msg =>
    rw [hm] at h
    cases hp : journal_get_int rec "PRIORITY" with
    | error e =>
      rw [hp] at h
      simp only [] at h
      by_cases he : e = -ENOENT
      · rw [if_pos he] at h; simp at h; rw [← h]
      · rw [if_neg he] at h; exact absurd h (by simp)
    | ok n => rw [hp] at h; simp at h; rw [← h]

theorem translateAll_ok_length {rs : List Record} {ws : List WireEntry}
    (h : translateAll rs = .ok ws) : ws.length = rs.length := by
  induction rs generalizing ws with
  | nil => simp [translateAll] at h; simp [← h]
  | cons r rs ih =>
    unfold translateAll at h
    cases ht : translateRecord r with
    | error e => rw [ht] at h; exact absurd h (by simp)
    | ok w =>
      rw [ht] at h
      cases ha : translateAll rs with
      | error e => rw [ha] at h; exact absurd h (by simp)
      | ok ws' =>
        rw [ha] at h; simp at h
        simp [← h, ih ha]

theorem translateAll_ok_cursors {rs : List Record} {ws : List WireEntry}
    (h : translateAll rs = .ok ws) : ws.map WireEntry.cursor = rs.map Record.cursor := by
  induction rs generalizing ws with
  | nil => simp [translateAll] at h; simp [← h]
  | cons r rs ih =>
    unfold translateAll at h
    cases ht : translateRecord r with
    | error e => rw [ht] at h; exact absurd h (by simp)
    | ok w =>
      rw [ht] at h
      cases ha : translateAll rs with
      | error e => rw [ha] at h; exact absurd h (by simp)
      | ok ws' =>
        rw [ha] at h; simp at h
        simp [← h, ih ha, translateRecord_ok_cursor ht]

theorem findCursorIdx_some {rs : List Record} {tok : String} {i : Nat}
    (h : findCursorIdx rs tok = some i) :
    i < rs.length ∧ ∃ r, rs[i]? = some r ∧ r.cursor = tok := by
  induction rs generalizing i with
  | nil => simp [findCursorIdx] at h
  | cons r rs ih =>
    unfold findCursorIdx at h
    by_cases hc : r.cursor = tok
    · rw [if_pos hc] at h
      simp at h
      subst h
      exact ⟨by simp, r, by simp, hc⟩
    · rw [if_neg hc] at h
      cases hrec : findCursorIdx rs tok with
      | none => rw [hrec] at h; simp at h
      | some i' =>
        rw [hrec] at h; simp at h
        obtain ⟨hlt, r', hget, hcur⟩ := ih hrec
        subst h
        exact ⟨by simpa using Nat.succ_lt_succ hlt, r', by simpa using hget, hcur⟩

/-- A successful `sd_journal_next` lands on the record at `startIdx`. -/
theorem sd_journal_next_of_get {j : Journal} {r : Record}
    (h : j.entries[startIdx j]? = some r) :
    sd_journal_next j = ({ j with loc := .pos (startIdx j) }, 1) := by
  obtain ⟨es, l⟩ := j
  cases l with
  | head =>
    have hlt : 0 < es.length := by
      simpa [startIdx] using (List.getElem?_eq_some.mp h).1
    simp [sd_journal_next, startIdx, hlt]
  | pos i =>
    have hlt : i + 1 < es.length := by
      simpa [startIdx] using (List.getElem?_eq_some.mp h).1
    simp [sd_journal_next, startIdx, hlt]
  | tail =>
    have hlt := (List.getElem?_eq_some.mp h).1
    simp [startIdx] at hlt
  | seekTok tok =>
    cases hf : findCursorIdx es tok with
    | none =>
      have hlt := (List.getElem?_eq_some.mp h).1
      simp [startIdx, hf] at hlt
    | some i =>
      simp [sd_journal_next, startIdx, hf]

/-- A failed `sd_journal_next` leaves the journal unchanged. -/
theorem sd_journal_next_of_none {j : Journal}
    (h : j.entries[startIdx j]? = none) :
    sd_journal_next j = (j, 0) := by
  have hlen : j.entries.length ≤ startIdx j := List.getElem?_eq_none_iff.mp h
  obtain ⟨es, l⟩ := j
  cases l with
  | head =>
    simp [startIdx] at hlen
    simp [sd_journal_next, hlen]
  | pos i =>
    simp [startIdx] at hlen
    simp [sd_journal_next]
    omega
  | tail => simp [sd_journal_next]
  | seekTok tok =>
    cases hf : findCursorIdx es tok with
    | none => simp [sd_journal_next, hf]
    | some i =>
      have hi := (findCursorIdx_some hf).1
      simp [startIdx, hf] at hlen
      omega

theorem journal_read_next_entry_of_none {j : Journal}
    (h : j.entries[startIdx j]? = none) :
    journal_read_next_entry j = .ok none := by
  unfold journal_read_next_entry
  rw [sd_journal_next_of_none h]
  simp

theorem journal_read_next_entry_of_get {j : Journal} {r : Record}
    (h : j.entries[startIdx j]? = some r) :
    journal_read_next_entry j =
      match translateRecord r with
      | .error e => .error e
      | .ok w => .ok (some (w, { j with loc := .pos (startIdx j) })) := by
  unfold journal_read_next_entry
  rw [sd_journal_next_of_get h]
  have hcur : currentRecord { j with loc := Location.pos (startIdx j) } = some r := by
    simp [currentRecord]
    exact h
  simp only [hcur]
  norm_num

/-- The value of the read loop: it drains and translates exactly the
records from `startIdx` on, in order, and ends positioned on the last
record of the journal when it read anything.  `fuel = remaining` suffices
because a successful move strictly decreases `remaining`, and with
`remaining = 0` the next move would fail anyway. -/
theorem monitorReadLoop_spec (fuel : Nat) :
    ∀ (j : Journal) (acc : List WireEntry), j.remaining ≤ fuel →
    monitorReadLoop fuel j acc =
      match translateAll (j.entries.drop (startIdx j)) with
      | .error _ => .error (-VARLINK_ERROR_PANIC)
      | .ok ws => .ok (acc ++ ws,
          if startIdx j < j.entries.length
          then { j with loc := .pos (j.entries.length - 1) } else j) := by
  induction fuel with
  | zero =>
    intro j acc hfuel
    have hle : j.entries.length ≤ startIdx j := by
      unfold Journal.remaining at hfuel; omega
    rw [List.drop_eq_nil_of_le hle]
    simp [monitorReadLoop, translateAll, if_neg (by omega : ¬ startIdx j < j.entries.length)]
  | succ fuel ih =>
    intro j acc hfuel
    cases h : j.entries[startIdx j]? with
    | none =>
      have hle : j.entries.length ≤ startIdx j := List.getElem?_eq_none_iff.mp h
      rw [List.drop_eq_nil_of_le hle]
      simp [monitorReadLoop, journal_read_next_entry_of_none h, translateAll,
            if_neg (by omega : ¬ startIdx j < j.entries.length)]
    | some r =>
      obtain ⟨hs, hget⟩ := List.getElem?_eq_some.mp h
      have hdrop : j.entries.drop (startIdx j) = r :: j.entries.drop (startIdx j + 1) := by
        rw [List.drop_eq_getElem_cons hs, hget]
      rw [hdrop]
      have hread := journal_read_next_entry_of_get h
      cases ht : translateRecord r with
      | error e =>
        rw [ht] at hread
        simp only [monitorReadLoop, hread]
        simp [translateAll, ht]
      | ok w =>
        rw [ht] at hread
        have hst : startIdx { j with loc := Location.pos (startIdx j) } = startIdx j + 1 := rfl
        have hrem : Journal.remaining { j with loc := Location.pos (startIdx j) } ≤ fuel := by
          unfold Journal.remaining
          rw [hst]
          show j.entries.length - (startIdx j + 1) ≤ fuel
          unfold Journal.remaining at hfuel
          omega
        simp only [monitorReadLoop, hread]
        rw [ih _ _ hrem]
        rw [hst]
        cases ha : translateAll (j.entries.drop (startIdx j + 1)) with
        | error e => simp [translateAll, ht, ha]
        | ok ws' =>
          simp only [translateAll, ht, ha]
          rw [if_pos (show startIdx j < j.entries.length from hs)]
          by_cases h2 : startIdx j + 1 < j.entries.length
          · rw [if_pos (by simpa using h2)]
            simp
          · rw [if_neg (by simpa using h2)]
            have hlst : startIdx j = j.entries.length - 1 := by omega
            simp [hlst]

/-- A translation failure anywhere in the pending records surfaces as
`-VARLINK_ERROR_PANIC` from `monitor_read_entries`. -/
theorem monitor_read_entries_error {m : Monitor} {e : Int}
    (h : translateAll (m.journal.entries.drop (startIdx m.journal)) = .error e) :
    monitor_read_entries m = .error (-VARLINK_ERROR_PANIC) := by
  unfold monitor_read_entries
  rw [monitorReadLoop_spec _ _ _ (le_refl _), h]

/-- A batch with nothing to read returns the empty sequence and clears the
stored cursor (`free(monitor->cursor); monitor->cursor = NULL;` runs
unconditionally, and the `n_read > 0` store is skipped). -/
theorem monitor_read_entries_empty {m : Monitor}
    (h : m.journal.entries.length ≤ startIdx m.journal) :
    monitor_read_entries m = .ok ([], { m with cursor := none }) := by
  unfold monitor_read_entries
  rw [monitorReadLoop_spec _ _ _ (le_refl _)]
  rw [List.drop_eq_nil_of_le h]
  simp only [translateAll]
  rw [if_neg (by omega : ¬ startIdx m.journal < m.journal.entries.length)]
  simp

/-- A successful non-empty batch returns the translations of the pending
records and stores the last record's resume token as the monitor's cursor. -/
theorem monitor_read_entries_ok {m : Monitor} {ws : List WireEntry}
    (hlt : startIdx m.journal < m.journal.entries.length)
    (h : translateAll (m.journal.entries.drop (startIdx m.journal)) = .ok ws) :
    ∃ rl, m.journal.entries[m.journal.entries.length - 1]? = some rl ∧
      monitor_read_entries m =
        .ok (ws, { m with
                   journal := { m.journal with loc := .pos (m.journal.entries.length - 1) },
                   cursor := some rl.cursor }) := by
  have hlast : m.journal.entries.length - 1 < m.journal.entries.length := by omega
  obtain ⟨rl, hget⟩ : ∃ rl, m.journal.entries[m.journal.entries.length - 1]? = some rl := by
    refine ⟨m.journal.entries.get ⟨m.journal.entries.length - 1, hlast⟩, ?_⟩
    exact List.getElem?_eq_some.mpr ⟨hlast, rfl⟩
  refine ⟨rl, hget, ?_⟩
  have hws : 0 < ws.length := by
    rw [translateAll_ok_length h, List.length_drop]
    omega
  unfold monitor_read_entries
  rw [monitorReadLoop_spec _ _ _ (le_refl _), h]
  rw [if_pos hlt]
  have hcur : journal_current_cursor
      { m.journal with loc := .pos (m.journal.entries.length - 1) } = .ok rl.cursor := by
    simp only [journal_current_cursor, currentRecord]
    rw [hget]
  simp only [List.nil_append]
  rw [if_pos hws]
  rw [hcur]

theorem translateAll_ok_of_all (rs : List Record) (h : ∀ r ∈ rs, translatesOk r = true) :
    ∃ ws, translateAll rs = .ok ws := by
  induction rs with
  | nil => exact ⟨[], rfl⟩
  | cons r rs ih =>
    have hr := h r (by simp)
    unfold translatesOk at hr
    cases ht : translateRecord r with
    | error e => rw [ht] at hr; simp at hr
    | ok w =>
      obtain ⟨ws, hws⟩ := ih (fun r' hr' => h r' (by simp [hr']))
      exact ⟨w :: ws, by simp [translateAll, ht, hws]⟩

theorem getLast?_drop_of_lt {α : Type} (l : List α) (s : Nat) (h : s < l.length) :
    (l.drop s).getLast? = l.getLast? := by
  rw [List.getLast?_eq_getElem? , List.getLast?_eq_getElem?, List.length_drop,
      List.getElem?_drop]
  congr 1
  omega

/-- `monitor_read_entries` fails only with the panic code. -/
theorem monitor_read_entries_error_code {m : Monitor} {e : Int}
    (h : monitor_read_entries m = .error e) : e = -VARLINK_ERROR_PANIC := by
  unfold monitor_read_entries at h
  rw [monitorReadLoop_spec _ _ _ (le_refl _)] at h
  cases ha : translateAll (m.journal.entries.drop (startIdx m.journal)) with
  | error e' => rw [ha] at h; simpa using h.symm
  | ok ws =>
    rw [ha] at h
    simp only [] at h
    by_cases hlen : 0 < ([] ++ ws : List WireEntry).length
    · rw [if_pos hlen] at h
      cases hc : journal_current_cursor
          (if startIdx m.journal < m.journal.entries.length
           then { m.journal with loc := .pos (m.journal.entries.length - 1) } else m.journal) with
      | error e' => rw [hc] at h; simpa using h.symm
      | ok c => rw [hc] at h; exact absurd h (by simp)
    · rw [if_neg hlen] at h; exact absurd h (by simp)

/-- The read-and-reply tail of the dispatch fails only with the panic code. -/
theorem monitorDispatchRead_error_code {m : Monitor} {e : Int}
    (h : monitorDispatchRead m = .error e) : e = -VARLINK_ERROR_PANIC := by
  unfold monitorDispatchRead at h
  cases hr : monitor_read_entries m with
  | error e' =>
    rw [hr] at h
    simp at h
    rw [h] at hr
    exact monitor_read_entries_error_code hr
  | ok p =>
    obtain ⟨entries, m'⟩ := p
    rw [hr] at h
    simp only [] at h
    by_cases hlen : entries.length = 0
    · rw [if_pos hlen] at h; exact absurd h (by simp)
    · rw [if_neg hlen] at h; exact absurd h (by simp)

/-- `monitor_dispatch` fails only with the panic code: its only error
sources are the batch read and the cursor fetch, both surfaced as
`-VARLINK_ERROR_PANIC`. -/
theorem monitor_dispatch_error_code {m : Monitor} {ev : JournalEvent} {e : Int}
    (h : monitor_dispatch m ev = .error e) : e = -VARLINK_ERROR_PANIC := by
  cases ev with
  | nop => exact absurd h (by simp [monitor_dispatch])
  | append => exact monitorDispatchRead_error_code h
  | invalidate =>
    unfold monitor_dispatch at h
    cases hc : m.cursor with
    | some c => rw [hc] at h; exact monitorDispatchRead_error_code h
    | none => rw [hc] at h; exact monitorDispatchRead_error_code h

/-- `sd_journal_previous_skip` from a discrete position moves back
`min c i` entries, sticking at the first entry (index 0). -/
theorem previous_skip_from_pos (rs : List Record) (c : Nat) :
    ∀ i, sd_journal_previous_skip { entries := rs, loc := .pos i } c
      = ({ entries := rs, loc := .pos (i - c) }, min c i) := by
  induction c with
  | zero => intro i; simp [sd_journal_previous_skip]
  | succ c ih =>
    intro i
    unfold sd_journal_previous_skip
    by_cases hi : 0 < i
    · simp only [sd_journal_previous, if_pos hi]
      norm_num
      rw [ih (i - 1)]
      have h1 : i - 1 - c = i - (c + 1) := by omega
      have h2 : min c (i - 1) + 1 = min (c + 1) i := by omega
      rw [h1, h2]
      exact ⟨rfl, rfl⟩
    · have hz : i = 0 := by omega
      subst hz
      simp [sd_journal_previous]

/-- `sd_journal_seek_tail` followed by `sd_journal_previous_skip (k+1)`
lands on the entry at index `len - 1 - k` (sticking at index 0 when the
journal holds at most `k` entries), or stays at the tail of an empty
journal. -/
theorem previous_skip_from_tail (rs : List Record) (k : Nat) (h : 0 < rs.length) :
    sd_journal_previous_skip { entries := rs, loc := .tail } (k + 1)
      = ({ entries := rs, loc := .pos (rs.length - 1 - k) }, min (k + 1) rs.length) := by
  unfold sd_journal_previous_skip
  simp only [sd_journal_previous, if_pos h]
  norm_num
  rw [previous_skip_from_pos]
  have h2 : min k (rs.length - 1) + 1 = min (k + 1) rs.length := by omega
  rw [h2]
  exact ⟨rfl, rfl⟩

theorem previous_skip_from_tail_nil (k : Nat) :
    sd_journal_previous_skip { entries := ([] : List Record), loc := .tail } (k + 1)
      = ({ entries := [], loc := .tail }, 0) := by
  unfold sd_journal_previous_skip
  simp [sd_journal_previous]

/-- The `process` field of a translated entry: `SYSLOG_IDENTIFIER` first,
falling back to `_COMM`. -/
theorem translateRecord_ok_process {rec : Record} {w : WireEntry}
    (h : translateRecord rec = .ok w) :
    w.process = (match lookupField rec.fields "SYSLOG_IDENTIFIER" with
                 | some p => some p
                 | none => lookupField rec.fields "_COMM") := by
  unfold translateRecord at h
  cases hm : journal_get_string rec "MESSAGE" with
  | error e => rw [hm] at h; exact absurd h (by simp)
  | ok msg =>
    rw [hm] at h
    cases hp : journal_get_int rec "PRIORITY" with
    | error e =>
      rw [hp] at h
      simp only [] at h
      by_cases he : e = -ENOENT
      · rw [if_pos he] at h
        simp at h
        rw [← h]
        rw [journal_get_string_eq, journal_get_string_eq]
        cases lookupField rec.fields "SYSLOG_IDENTIFIER" <;>
          cases lookupField rec.fields "_COMM" <;> simp
      · rw [if_neg he] at h; exact absurd h (by simp)
    | ok n =>
      rw [hp] at h
      simp at h
      rw [← h]
      rw [journal_get_string_eq, journal_get_string_eq]
      cases lookupField rec.fields "SYSLOG_IDENTIFIER" <;>
        cases lookupField rec.fields "_COMM" <;> simp

/-! ## The claims -/

/-- C1 (corrected): when a read during Streaming dispatch fails internally,
`monitor_dispatch` returns `-VARLINK_ERROR_PANIC` and the main event loop
terminates the WHOLE service process with exit status `ERROR_PANIC`
(`main.c` lines 464–465) — the service does not keep running, no other
session survives, and no `Panic` call error is sent to that client (the
dispatch path contains no `varlink_call_reply_error`; the error return goes
to `main`, which exits). -/
theorem C1_read_failure_exits_process (m : Monitor) (ev : JournalEvent) (e : Int)
    (h : monitor_dispatch m ev = .error e) :
    e = -VARLINK_ERROR_PANIC ∧ main_monitor_branch m ev = .exitProcess ERROR_PANIC := by
  have he := monitor_dispatch_error_code h
  refine ⟨he, ?_⟩
  unfold main_monitor_branch
  rw [h, he]
  simp

theorem C1_read_failure_exits_process_witness :
    (-VARLINK_ERROR_PANIC : Int) = -VARLINK_ERROR_PANIC ∧
    main_monitor_branch
      { journal := { entries := [recNoMsg], loc := .head }, cursor := none, registered := true }
      .append = .exitProcess ERROR_PANIC :=
  C1_read_failure_exits_process
    { journal := { entries := [recNoMsg], loc := .head }, cursor := none, registered := true }
    .append (-VARLINK_ERROR_PANIC) (by rfl)

/-- C1 counterexample: a streaming dispatch whose read fails internally (a
journal record with no `MESSAGE` field) makes the main loop EXIT the whole
process with status `ERROR_PANIC`, refuting the claim that the service
process keeps running and continues serving other sessions. -/
theorem C1_counterexample :
    monitor_dispatch
      { journal := { entries := [recNoMsg], loc := .head }, cursor := none, registered := true }
      .append = .error (-VARLINK_ERROR_PANIC) ∧
    main_monitor_branch
      { journal := { entries := [recNoMsg], loc := .head }, cursor := none, registered := true }
      .append ≠ .keepRunning :=
  ⟨by rfl, by decide⟩

/-- C2 (corrected): a read-batch that reads zero records does NOT leave the
Monitor's stored cursor unchanged — `monitor_read_entries` unconditionally
frees and clears `monitor->cursor` (`main.c` lines 242–243) before the
`n_read > 0` check, so an empty batch leaves the cursor absent. -/
theorem C2_empty_batch_clears_cursor (m : Monitor) (m' : Monitor)
    (h : monitor_read_entries m = .ok ([], m')) : m'.cursor = none := by
  unfold monitor_read_entries at h
  cases hl : monitorReadLoop m.journal.remaining m.journal [] with
  | error r => rw [hl] at h; exact absurd h (by simp)
  | ok p =>
    obtain ⟨entries, j'⟩ := p
    rw [hl] at h
    simp only [] at h
    by_cases hlen : 0 < entries.length
    · rw [if_pos hlen] at h
      cases hc : journal_current_cursor j' with
      | error e => rw [hc] at h; exact absurd h (by simp)
      | ok c =>
        rw [hc] at h
        simp at h
        obtain ⟨h1, h2⟩ := h
        subst h1
        simp at hlen
    · rw [if_neg hlen] at h
      simp at h
      obtain ⟨h1, h2⟩ := h
      rw [← h2]

theorem C2_empty_batch_clears_cursor_witness :
    ({ journal := { entries := [recBoot], loc := .pos 0 }, cursor := none,
       registered := true } : Monitor).cursor = none :=
  C2_empty_batch_clears_cursor
    { journal := { entries := [recBoot], loc := .pos 0 }, cursor := some "c0", registered := true }
    { journal := { entries := [recBoot], loc := .pos 0 }, cursor := none, registered := true }
    (by rfl)

/-- C2 counterexample: a Monitor holding cursor `"c0"` runs a read-batch
that reads zero records (journal already positioned on its last entry);
afterwards the stored cursor is `none`, not the prior `some "c0"`. -/
theorem C2_counterexample :
    monitor_read_entries
      { journal := { entries := [recBoot], loc := .pos 0 }, cursor := some "c0",
        registered := true }
      = .ok ([], { journal := { entries := [recBoot], loc := .pos 0 }, cursor := none,
                   registered := true })
    ∧ (none : Option String) ≠ some "c0" :=
  ⟨by rfl, by decide⟩

/-- C6 (confirmed): a `Monitor` call with negative `initial_lines` is
answered with the `InvalidParameter` error naming `initial_lines`, and no
session persists past the handler: no monitor is kept, and the scope-exit
teardown deregisters the transient registration and closes the reader. -/
theorem C6_negative_initial_lines (rs : List Record) (il : Int) (more : Bool)
    (hneg : il < 0) :
    (com_redhat_logging_monitor rs (some il) more).reply
        = some (.invalidParameter "initial_lines") ∧
    (com_redhat_logging_monitor rs (some il) more).kept = none ∧
    (com_redhat_logging_monitor rs (some il) more).trace
        = [.muxRegister, .muxDeregister, .readerClose, .callUnref] := by
  unfold com_redhat_logging_monitor monitor_new monitorFreeTrace
  simp [hneg]

theorem C6_negative_initial_lines_witness :
    (com_redhat_logging_monitor [] (some (-1)) true).reply
        = some (.invalidParameter "initial_lines") ∧
    (com_redhat_logging_monitor [] (some (-1)) true).kept = none ∧
    (com_redhat_logging_monitor [] (some (-1)) true).trace
        = [.muxRegister, .muxDeregister, .readerClose, .callUnref] :=
  C6_negative_initial_lines [] (-1) true (by decide)

/-- C7 (confirmed): after every successful read-batch that reads at least
one record, the Monitor's stored cursor equals the `cursor` resume token of
the last entry appended to the batch (`sd_journal_get_cursor` at the final
read position, which is the last record read). -/
theorem C7_cursor_is_last_entry (m : Monitor) (es : List WireEntry) (m' : Monitor)
    (h : monitor_read_entries m = .ok (es, m')) (hne : es ≠ []) :
    ∃ w, es.getLast? = some w ∧ m'.cursor = some w.cursor := by
  cases ha : translateAll (m.journal.entries.drop (startIdx m.journal)) with
  | error e =>
    rw [monitor_read_entries_error ha] at h
    exact absurd h (by simp)
  | ok ws =>
    by_cases hlt : startIdx m.journal < m.journal.entries.length
    · obtain ⟨rl, hget, hread⟩ := monitor_read_entries_ok hlt ha
      rw [hread] at h
      simp at h
      obtain ⟨h1, h2⟩ := h
      have hcur : ws.map WireEntry.cursor
          = (m.journal.entries.drop (startIdx m.journal)).map Record.cursor :=
        translateAll_ok_cursors ha
      have hchain : ws.getLast?.map WireEntry.cursor = some rl.cursor := by
        rw [← List.getLast?_map, hcur, List.getLast?_map,
            getLast?_drop_of_lt _ _ hlt, List.getLast?_eq_getElem?, hget]
        rfl
      cases hl : ws.getLast? with
      | none => rw [hl] at hchain; simp at hchain
      | some w =>
        rw [hl] at hchain
        simp at hchain
        subst h1
        refine ⟨w, hl, ?_⟩
        rw [← h2, hchain]
    · rw [monitor_read_entries_empty (by omega)] at h
      simp at h
      exact absurd h.1 hne

theorem C7_cursor_is_last_entry_witness :
    ∃ w, [wBoot, wWarn].getLast? = some w ∧
      ({ journal := { entries := [recBoot, recWarn], loc := .pos 1 }, cursor := some "c1",
         registered := true } : Monitor).cursor = some w.cursor :=
  C7_cursor_is_last_entry
    { journal := { entries := [recBoot, recWarn], loc := .head }, cursor := none,
      registered := true }
    [wBoot, wWarn]
    { journal := { entries := [recBoot, recWarn], loc := .pos 1 }, cursor := some "c1",
      registered := true }
    (by rfl) (by decide)

/-- C8 (confirmed): numeric priority levels 0–7 map one-to-one, in order, to
debug, information, notice, warning, error, alert, critical, emergency; a
record with no `PRIORITY` field (tolerated via `-ENOENT`, leaving the
sentinel `-1`) or with a numeric value outside `[0,7]` yields an entry with
no priority field, and is not an error. -/
theorem C8_priority_mapping (c : String) (u : Nat) (fs : List (String × String)) (msg : String)
    (hmsg : lookupField fs "MESSAGE" = some msg) :
    priorities = ["debug", "information", "notice", "warning", "error", "alert",
                  "critical", "emergency"] ∧
    priorities.Nodup ∧
    (lookupField fs "PRIORITY" = none →
      ∃ w, translateRecord ⟨c, u, fs⟩ = .ok w ∧ w.priority = none) ∧
    (∀ s v, lookupField fs "PRIORITY" = some s → strtollParse s = some v →
      ∃ w, translateRecord ⟨c, u, fs⟩ = .ok w ∧
        w.priority = (if 0 ≤ v ∧ v ≤ 7 then some (priorities.getD v.toNat "") else none)) := by
  refine ⟨rfl, by decide, ?_, ?_⟩
  · intro hp
    unfold translateRecord journal_get_int
    simp only [journal_get_string_eq]
    simp only [hmsg, hp]
    exact ⟨_, rfl, rfl⟩
  · intro s v hp hv
    unfold translateRecord journal_get_int
    simp only [journal_get_string_eq]
    simp only [hmsg, hp, hv]
    exact ⟨_, rfl, rfl⟩

theorem C8_priority_mapping_witness :
    priorities = ["debug", "information", "notice", "warning", "error", "alert",
                  "critical", "emergency"] ∧
    priorities.Nodup ∧
    (lookupField [("MESSAGE", "m")] "PRIORITY" = none →
      ∃ w, translateRecord ⟨"c9", 0, [("MESSAGE", "m")]⟩ = .ok w ∧ w.priority = none) ∧
    (∀ s v, lookupField [("MESSAGE", "m")] "PRIORITY" = some s → strtollParse s = some v →
      ∃ w, translateRecord ⟨"c9", 0, [("MESSAGE", "m")]⟩ = .ok w ∧
        w.priority = (if 0 ≤ v ∧ v ≤ 7 then some (priorities.getD v.toNat "") else none)) :=
  C8_priority_mapping "c9" 0 [("MESSAGE", "m")] "m" (by decide)

/-- C9 (confirmed): the wire entry's `process` field is the
`SYSLOG_IDENTIFIER` field's value when present, else the `_COMM` field's
value when only that is present, and is omitted when neither is present. -/
theorem C9_process_resolution (c : String) (u : Nat) (fs : List (String × String)) (w : WireEntry)
    (hok : translateRecord ⟨c, u, fs⟩ = .ok w) :
    (∀ p, lookupField fs "SYSLOG_IDENTIFIER" = some p → w.process = some p) ∧
    (lookupField fs "SYSLOG_IDENTIFIER" = none →
      ∀ p, lookupField fs "_COMM" = some p → w.process = some p) ∧
    (lookupField fs "SYSLOG_IDENTIFIER" = none → lookupField fs "_COMM" = none →
      w.process = none) := by
  have h := translateRecord_ok_process hok
  refine ⟨?_, ?_, ?_⟩
  · intro p hp
    rw [h]
    simp [hp]
  · intro hn p hp
    rw [h]
    simp [hn, hp]
  · intro hn hc
    rw [h]
    simp [hn, hc]

theorem C9_process_resolution_witness :
    (∀ p, lookupField [("MESSAGE", "m"), ("SYSLOG_IDENTIFIER", "sshd"), ("_COMM", "ssh")]
        "SYSLOG_IDENTIFIER" = some p →
      (⟨"cp", "1970-01-01 00:00:00Z", "m", none, some "sshd"⟩ : WireEntry).process = some p) ∧
    (lookupField [("MESSAGE", "m"), ("SYSLOG_IDENTIFIER", "sshd"), ("_COMM", "ssh")]
        "SYSLOG_IDENTIFIER" = none →
      ∀ p, lookupField [("MESSAGE", "m"), ("SYSLOG_IDENTIFIER", "sshd"), ("_COMM", "ssh")]
          "_COMM" = some p →
      (⟨"cp", "1970-01-01 00:00:00Z", "m", none, some "sshd"⟩ : WireEntry).process = some p) ∧
    (lookupField [("MESSAGE", "m"), ("SYSLOG_IDENTIFIER", "sshd"), ("_COMM", "ssh")]
        "SYSLOG_IDENTIFIER" = none →
      lookupField [("MESSAGE", "m"), ("SYSLOG_IDENTIFIER", "sshd"), ("_COMM", "ssh")]
        "_COMM" = none →
      (⟨"cp", "1970-01-01 00:00:00Z", "m", none, some "sshd"⟩ : WireEntry).process = none) :=
  C9_process_resolution "cp" 0 [("MESSAGE", "m"), ("SYSLOG_IDENTIFIER", "sshd"), ("_COMM", "ssh")]
    ⟨"cp", "1970-01-01 00:00:00Z", "m", none, some "sshd"⟩ (by rfl)

/-- C10 (confirmed): a present `PRIORITY` field is parsed as a leading
base-10 integer with trailing non-numeric characters silently ignored
(`strtoll`; `"3extra"` is level 3, severity `warning`); any value with a
leading integer translates successfully, and only a value with no leading
integer at all (`strtoll` consumed nothing, `-EINVAL`) makes translation
fail, which aborts the whole read-batch with the panic error. -/
theorem C10_priority_parsing (c : String) (u : Nat) (fs : List (String × String)) (msg : String)
    (hmsg : lookupField fs "MESSAGE" = some msg) :
    strtollParse "3extra" = some 3 ∧
    (∃ w, translateRecord ⟨"cj", 0, [("MESSAGE", "m"), ("PRIORITY", "3extra")]⟩ = .ok w ∧
        w.priority = some "warning") ∧
    (∀ s v, lookupField fs "PRIORITY" = some s → strtollParse s = some v →
        ∃ w, translateRecord ⟨c, u, fs⟩ = .ok w) ∧
    (∀ s, lookupField fs "PRIORITY" = some s → strtollParse s = none →
        translateRecord ⟨c, u, fs⟩ = .error (-EINVAL) ∧
        monitor_read_entries
          { journal := { entries := [⟨c, u, fs⟩], loc := .head }, cursor := none,
            registered := true } = .error (-VARLINK_ERROR_PANIC)) := by
  refine ⟨by decide, ⟨_, by rfl, by rfl⟩, ?_, ?_⟩
  · intro s v hp hv
    unfold translateRecord journal_get_int
    simp only [journal_get_string_eq]
    simp only [hmsg, hp, hv]
    exact ⟨_, rfl⟩
  · intro s hp hv
    have ht : translateRecord ⟨c, u, fs⟩ = .error (-EINVAL) := by
      unfold translateRecord journal_get_int
      simp only [journal_get_string_eq]
      simp only [hmsg, hp, hv]
      simp [EINVAL, ENOENT]
    refine ⟨ht, ?_⟩
    apply monitor_read_entries_error (e := -EINVAL)
    simp only [startIdx, List.drop_zero]
    simp [translateAll, ht]

theorem C10_priority_parsing_witness :
    strtollParse "3extra" = some 3 ∧
    (∃ w, translateRecord ⟨"cj", 0, [("MESSAGE", "m"), ("PRIORITY", "3extra")]⟩ = .ok w ∧
        w.priority = some "warning") ∧
    (∀ s v, lookupField [("MESSAGE", "m"), ("PRIORITY", "x3")] "PRIORITY" = some s →
        strtollParse s = some v →
        ∃ w, translateRecord ⟨"cn", 0, [("MESSAGE", "m"), ("PRIORITY", "x3")]⟩ = .ok w) ∧
    (∀ s, lookupField [("MESSAGE", "m"), ("PRIORITY", "x3")] "PRIORITY" = some s →
        strtollParse s = none →
        translateRecord ⟨"cn", 0, [("MESSAGE", "m"), ("PRIORITY", "x3")]⟩ = .error (-EINVAL) ∧
        monitor_read_entries
          { journal := { entries := [⟨"cn", 0, [("MESSAGE", "m"), ("PRIORITY", "x3")]⟩],
                         loc := .head }, cursor := none,
            registered := true } = .error (-VARLINK_ERROR_PANIC)) :=
  C10_priority_parsing "cn" 0 [("MESSAGE", "m"), ("PRIORITY", "x3")] "m" (by decide)

theorem sd_journal_previous_entries (j : Journal) :
    (sd_journal_previous j).1.entries = j.entries := by
  obtain ⟨es, l⟩ := j
  cases l with
  | head => rfl
  | tail =>
    by_cases h : 0 < es.length
    · simp [sd_journal_previous, h]
    · simp [sd_journal_previous, h]
  | pos i =>
    by_cases h : 0 < i
    · simp [sd_journal_previous, h]
    · simp [sd_journal_previous, h]
  | seekTok tok =>
    cases h : findCursorIdx es tok with
    | none => simp [sd_journal_previous, h]
    | some i => simp [sd_journal_previous, h]

theorem sd_journal_previous_skip_entries (n : Nat) :
    ∀ j : Journal, (sd_journal_previous_skip j n).1.entries = j.entries := by
  induction n with
  | zero => intro j; rfl
  | succ n ih =>
    intro j
    have hprev := sd_journal_previous_entries j
    unfold sd_journal_previous_skip
    cases hsp : sd_journal_previous j with
    | mk a b =>
      rw [hsp] at hprev
      simp only [hsp]
      by_cases hb : b = 1
      · rw [if_pos hb]
        cases hsk : sd_journal_previous_skip a n with
        | mk a2 b2 =>
          have h2 := ih a
          rw [hsk] at h2
          simp only [hsk]
          rw [← hprev, ← h2]
      · rw [if_neg hb]
        exact hprev

/-- With every record of the journal translating, a read-batch always
succeeds, and it neither touches the registration flag nor the records. -/
theorem monitor_read_entries_ok_of_all {m : Monitor}
    (hok : ∀ r ∈ m.journal.entries, translatesOk r = true) :
    ∃ es m', monitor_read_entries m = .ok (es, m') ∧ m'.registered = m.registered ∧
      m'.journal.entries = m.journal.entries := by
  obtain ⟨ws, hws⟩ := translateAll_ok_of_all _
    (fun r hr => hok r (List.mem_of_mem_drop hr))
  by_cases hlt : startIdx m.journal < m.journal.entries.length
  · obtain ⟨rl, hget, hread⟩ := monitor_read_entries_ok hlt hws
    exact ⟨ws, _, hread, rfl, rfl⟩
  · exact ⟨[], _, monitor_read_entries_empty (by omega), rfl, rfl⟩

/-- C5 counterexample: even a NON-streaming call has its reader's
descriptor registered with the event multiplexer — `monitor_new` registers
unconditionally (`main.c` line 155), before streaming is negotiated — so
"a non-streaming call never has its reader's descriptor registered" fails
inside the handler (it is deregistered again only at scope exit). -/
theorem C5_counterexample :
    ResOp.muxRegister ∈ (com_redhat_logging_monitor [] none false).trace := by decide

/-- C5 (corrected): the registration invariant holds at every quiescent
point (handler completion, i.e. whenever the event loop can run): a monitor
persists registered with the multiplexer iff continuous streaming was
negotiated, and on every non-persisting path the transient registration is
removed (and the reader closed afterwards) before the handler returns.
During the handler, however, even a non-streaming call's reader is
transiently registered. -/
theorem C5_registration_invariant (rs : List Record) (il : Option Int) (more : Bool)
    (hok : ∀ r ∈ rs, translatesOk r = true) :
    ((∃ m, (com_redhat_logging_monitor rs il more).kept = some m) ↔
        (more = true ∧ 0 ≤ il.getD 10)) ∧
    (∀ m, (com_redhat_logging_monitor rs il more).kept = some m → m.registered = true) ∧
    ((com_redhat_logging_monitor rs il more).kept = none →
        (com_redhat_logging_monitor rs il more).trace
          = [.muxRegister, .muxDeregister, .readerClose, .callUnref]) := by
  by_cases hneg : il.getD 10 < 0
  · have hout : com_redhat_logging_monitor rs il more
        = { ret := 0, reply := some (.invalidParameter "initial_lines"), kept := none,
            trace := [.muxRegister, .muxDeregister, .readerClose, .callUnref] } := by
      unfold com_redhat_logging_monitor monitor_new monitorFreeTrace
      simp [hneg]
    rw [hout]
    refine ⟨⟨?_, ?_⟩, ?_, ?_⟩
    · rintro ⟨m, hm⟩
      simp at hm
    · rintro ⟨-, hge⟩
      omega
    · intro m hm
      simp at hm
    · intro _
      rfl
  · push_neg at hneg
    obtain ⟨es, m', hread, hreg, hents⟩ := monitor_read_entries_ok_of_all
      (m := { journal := (sd_journal_previous_skip { entries := rs, loc := Location.tail }
                (il.getD 10 + 1).toNat).1, cursor := none, registered := true })
      (by
        intro r hr
        apply hok
        have := sd_journal_previous_skip_entries (il.getD 10 + 1).toNat
          { entries := rs, loc := Location.tail }
        simp only [this] at hr
        exact hr)
    have hout : com_redhat_logging_monitor rs il more
        = (if more then
             { ret := 0, reply := some (.entriesReply es true), kept := some m',
               trace := [.muxRegister] }
           else
             { ret := 0, reply := some (.entriesReply es false), kept := none,
               trace := [.muxRegister] ++ monitorFreeTrace }) := by
      unfold com_redhat_logging_monitor monitor_new
      simp only [sd_journal_seek_tail]
      rw [if_neg (by omega : ¬ il.getD 10 < 0)]
      cases hsk : sd_journal_previous_skip { entries := rs, loc := Location.tail }
          (il.getD 10 + 1).toNat with
      | mk a b =>
        simp only [hsk]
        rw [hsk] at hread
        rw [hread]
    rw [hout]
    cases more with
    | true =>
      rw [if_pos rfl]
      refine ⟨⟨?_, ?_⟩, ?_, ?_⟩
      · intro _
        exact ⟨rfl, hneg⟩
      · intro _
        exact ⟨m', rfl⟩
      · intro m hm
        simp at hm
        rw [← hm]
        exact hreg
      · intro hnone
        simp at hnone
    | false =>
      rw [if_neg (by decide : ¬ (false = true))]
      refine ⟨⟨?_, ?_⟩, ?_, ?_⟩
      · rintro ⟨m, hm⟩
        simp at hm
      · rintro ⟨hf, -⟩
        exact absurd hf (by decide)
      · intro m hm
        simp at hm
      · intro _
        rfl

theorem C5_registration_invariant_witness :
    ((∃ m, (com_redhat_logging_monitor [recBoot] none true).kept = some m) ↔
        (true = true ∧ 0 ≤ (none : Option Int).getD 10)) ∧
    (∀ m, (com_redhat_logging_monitor [recBoot] none true).kept = some m →
        m.registered = true) ∧
    ((com_redhat_logging_monitor [recBoot] none true).kept = none →
        (com_redhat_logging_monitor [recBoot] none true).trace
          = [.muxRegister, .muxDeregister, .readerClose, .callUnref]) :=
  C5_registration_invariant [recBoot] none true (by decide)

/-- C4 (corrected): on an `Invalidate` notification with a stored cursor
`c`, the read-batch does NOT begin at the record immediately after `c` — it
begins AT the record identified by `c`, which is therefore delivered a
second time.  `sd_journal_seek_cursor` plus the loop's first
`sd_journal_next` return the cursor's own entry (sd-journal resolves a
pending seek location inclusively; skipping it would need the explicit
extra step `journalctl --after-cursor` performs, which this code lacks). -/
theorem C4_invalidate_redelivers_cursor (m : Monitor) (c : String) (i : Nat)
    (hc : m.cursor = some c)
    (hf : findCursorIdx m.journal.entries c = some i)
    (hok : ∀ r ∈ m.journal.entries, translatesOk r = true) :
    ∃ ws m', translateAll (m.journal.entries.drop i) = .ok ws ∧
      monitor_dispatch m .invalidate = .ok (some ws, m') ∧
      ws.map WireEntry.cursor = (m.journal.entries.drop i).map Record.cursor ∧
      ws.head?.map WireEntry.cursor = some c := by
  obtain ⟨⟨mes, mloc⟩, mc, mr⟩ := m
  replace hc : mc = some c := hc
  subst hc
  replace hf : findCursorIdx mes c = some i := hf
  replace hok : ∀ r ∈ mes, translatesOk r = true := hok
  obtain ⟨hlt, r0, hget0, hcur0⟩ := findCursorIdx_some hf
  obtain ⟨ws, hws⟩ := translateAll_ok_of_all (mes.drop i)
    (fun r hr => hok r (List.mem_of_mem_drop hr))
  have hstart : startIdx { entries := mes, loc := Location.seekTok c } = i := by
    simp [startIdx, hf]
  obtain ⟨rl, hget, hread⟩ := monitor_read_entries_ok
    (m := { journal := { entries := mes, loc := Location.seekTok c }, cursor := some c, registered := mr })
    (by
      show startIdx { entries := mes, loc := Location.seekTok c } < mes.length
      rw [hstart]
      exact hlt)
    (by
      show translateAll (mes.drop (startIdx { entries := mes, loc := Location.seekTok c })) = .ok ws
      rw [hstart]
      exact hws)
  have hlen : ws.length ≠ 0 := by
    rw [translateAll_ok_length hws, List.length_drop]
    omega
  have hdisp : monitor_dispatch { journal := { entries := mes, loc := mloc }, cursor := some c, registered := mr } .invalidate
      = .ok (some ws, { journal := { entries := mes, loc := Location.pos (mes.length - 1) }, cursor := some rl.cursor, registered := mr }) := by
    show monitorDispatchRead { journal := { entries := mes, loc := Location.seekTok c }, cursor := some c, registered := mr } = _
    unfold monitorDispatchRead
    rw [hread]
    simp only []
    rw [if_neg hlen]
  have hhead : ws.head?.map WireEntry.cursor = some c := by
    rw [← List.head?_map, translateAll_ok_cursors hws, List.head?_map, List.head?_drop, hget0]
    simp [hcur0]
  exact ⟨ws, _, hws, hdisp, translateAll_ok_cursors hws, hhead⟩

theorem C4_invalidate_redelivers_cursor_witness :
    ∃ ws m', translateAll (mC4demo.journal.entries.drop 0) = .ok ws ∧
      monitor_dispatch mC4demo .invalidate = .ok (some ws, m') ∧
      ws.map WireEntry.cursor = (mC4demo.journal.entries.drop 0).map Record.cursor ∧
      ws.head?.map WireEntry.cursor = some "c0" :=
  C4_invalidate_redelivers_cursor mC4demo "c0" 0 (by rfl) (by decide) (by decide)

/-- C4 counterexample: a streaming Monitor whose stored cursor is `"c0"`
(the first record's token) receives `Invalidate`; the next read-batch's
first delivered entry is the record with cursor `"c0"` itself — a duplicate
delivery of `c` — not the record after it. -/
theorem C4_counterexample :
    monitor_dispatch mC4demo .invalidate = .ok (some [wBoot, wWarn], mC4demo') ∧
    mC4demo.cursor = some "c0" ∧ wBoot.cursor = "c0" :=
  ⟨by rfl, rfl, rfl⟩

/-- C3 (corrected): for a non-negative requested `initial_lines = k` and a
log of `m` records, the initial reply is the translation, in log order
(chronological, most-recent-last), of the last `min k (m-1)` records — NOT
`min k m`: seeking back `k+1` from the tail sticks at the OLDEST record
when `m ≤ k`, and the loop's first `sd_journal_next` then steps past it, so
the oldest record is dropped whenever the log is no longer than
`initial_lines`.  Consequently the reply is empty iff `k = 0` or `m ≤ 1`
(not iff `m = 0`). -/
theorem C3_initial_batch (rs : List Record) (k : Nat) (more : Bool)
    (hok : ∀ r ∈ rs, translatesOk r = true) :
    ∃ ws, translateAll (rs.drop (rs.length - min k (rs.length - 1))) = .ok ws ∧
      (com_redhat_logging_monitor rs (some (k : Int)) more).reply
        = some (.entriesReply ws more) ∧
      ws.length = min k (rs.length - 1) ∧
      (ws = [] ↔ (k = 0 ∨ rs.length ≤ 1)) ∧
      ws.map WireEntry.cursor
        = (rs.drop (rs.length - min k (rs.length - 1))).map Record.cursor := by
  have hknn : ¬ ((k : Int) < 0) := by omega
  have htn : ((k : Int) + 1).toNat = k + 1 := by omega
  obtain ⟨ws, hws⟩ := translateAll_ok_of_all (rs.drop (rs.length - min k (rs.length - 1)))
    (fun r hr => hok r (List.mem_of_mem_drop hr))
  have hlenws : ws.length = min k (rs.length - 1) := by
    rw [translateAll_ok_length hws, List.length_drop]
    omega
  have hiff : ws = [] ↔ (k = 0 ∨ rs.length ≤ 1) := by
    rw [← List.length_eq_zero, hlenws]
    omega
  refine ⟨ws, hws, ?_, hlenws, hiff, translateAll_ok_cursors hws⟩
  rcases Nat.eq_zero_or_pos rs.length with h0 | h0
  · have hrs : rs = [] := List.length_eq_zero.mp h0
    subst hrs
    have hwsnil : ws = [] := by
      rw [← List.length_eq_zero, hlenws]
      simp
    subst hwsnil
    unfold com_redhat_logging_monitor monitor_new
    simp only [sd_journal_seek_tail, Option.getD_some]
    rw [if_neg hknn, htn]
    rw [previous_skip_from_tail_nil k]
    simp only []
    rw [monitor_read_entries_empty (m := { journal := { entries := [], loc := Location.tail }, cursor := none, registered := true }) (by simp [startIdx])]
    cases more <;> rfl
  · unfold com_redhat_logging_monitor monitor_new
    simp only [sd_journal_seek_tail, Option.getD_some]
    rw [if_neg hknn, htn]
    rw [previous_skip_from_tail rs k h0]
    simp only []
    by_cases hmin : 0 < min k (rs.length - 1)
    · have hstart2 : startIdx { entries := rs, loc := Location.pos (rs.length - 1 - k) }
          = rs.length - min k (rs.length - 1) := by
        simp only [startIdx]
        omega
      obtain ⟨rl, hget, hread⟩ := monitor_read_entries_ok
        (m := { journal := { entries := rs, loc := Location.pos (rs.length - 1 - k) }, cursor := none, registered := true })
        (by
          show startIdx { entries := rs, loc := Location.pos (rs.length - 1 - k) } < rs.length
          rw [hstart2]
          omega)
        (by
          show translateAll (rs.drop (startIdx { entries := rs, loc := Location.pos (rs.length - 1 - k) })) = .ok ws
          rw [hstart2]
          exact hws)
      rw [hread]
      cases more <;> rfl
    · have hws0 : ws = [] := by
        rw [← List.length_eq_zero, hlenws]
        omega
      subst hws0
      rw [monitor_read_entries_empty
        (m := { journal := { entries := rs, loc := Location.pos (rs.length - 1 - k) }, cursor := none, registered := true })
        (by
          show rs.length ≤ startIdx { entries := rs, loc := Location.pos (rs.length - 1 - k) }
          simp only [startIdx]
          omega)]
      cases more <;> rfl

theorem C3_initial_batch_witness :
    ∃ ws, translateAll ([recBoot, recWarn, recBeat].drop
        ([recBoot, recWarn, recBeat].length - min 2 ([recBoot, recWarn, recBeat].length - 1)))
        = .ok ws ∧
      (com_redhat_logging_monitor [recBoot, recWarn, recBeat] (some ((2 : Nat) : Int)) false).reply
        = some (.entriesReply ws false) ∧
      ws.length = min 2 ([recBoot, recWarn, recBeat].length - 1) ∧
      (ws = [] ↔ (2 = 0 ∨ [recBoot, recWarn, recBeat].length ≤ 1)) ∧
      ws.map WireEntry.cursor
        = ([recBoot, recWarn, recBeat].drop
            ([recBoot, recWarn, recBeat].length
              - min 2 ([recBoot, recWarn, recBeat].length - 1))).map Record.cursor :=
  C3_initial_batch [recBoot, recWarn, recBeat] 2 false (by decide)

/-- C3 counterexample: a log with `m = 1` record and `initial_lines = 2`
yields an EMPTY initial reply, although the claim demands
`min(k, m) = min(2, 1) = 1` entry and "empty iff `m = 0`" with `m = 1 ≠ 0`:
the single record is skipped. -/
theorem C3_counterexample :
    (com_redhat_logging_monitor [recBoot] (some 2) false).reply
      = some (.entriesReply [] false) ∧
    ([] : List WireEntry).length ≠ min 2 1 :=
  ⟨by rfl, by decide⟩

end ComRedhatLogging
